import Mathlib

/-!
Shallow embedding of the APEX quad-lane parallelized executor
(`src/src/python/executor_raptor_4x4x4x4.py`) and proofs about it.

Modelling conventions:
* Python floats are modelled as exact rationals (`ℚ`), Python ints as `ℤ`
  or `ℕ` as appropriate.
* Wall-clock time is a logical clock of type `ℚ`: `await asyncio.sleep(d)`
  advances the clock by `d`, and `time.time()` reads the current clock.
* Environment variables read through `os.getenv(key, default)` are modelled
  by an `Env` record with one optional, already-parsed field per key that
  the executor reads, plus an `other` field standing for all unrelated
  environment variables.
* `np.random.random() < p` draws are modelled by an explicit `Bool`
  parameter `draw` (`true` = the draw succeeded).
-/

namespace Apex

/-- Execution mode enum (`ExecutionMode` in the source, fallback definition). -/
inductive ExecutionMode where
  | LIVE
  | DEV
  | SIM
deriving DecidableEq, Repr

/-- Status of execution attempt (`ExecutionStatus`). -/
inductive ExecutionStatus where
  | PENDING
  | QUEUED
  | PROCESSING
  | EXECUTING
  | SUCCESS
  | FAILED
  | TIMEOUT
  | REJECTED
deriving DecidableEq, Repr

/-- Trade candidate (`Opportunity` dataclass, fallback definition in the source). -/
structure Opportunity where
  route_id : String
  tokens : List String
  dexes : List String
  input_amount : ℚ
  expected_output : ℚ
  gas_estimate : ℤ
  profit_usd : ℚ
  confidence_score : ℚ
  timestamp : ℤ
  chain : String
deriving DecidableEq, Repr

/-- Result of an execution attempt (`ExecutionResult` dataclass). -/
structure ExecutionResult where
  opportunity : Opportunity
  status : ExecutionStatus
  lane_id : ℕ
  sniper_id : ℕ
  start_time : ℚ
  end_time : ℚ
  tx_hash : Option String := none
  actual_profit : ℚ := 0
  gas_used : ℤ := 0
  error_msg : Option String := none
deriving DecidableEq, Repr

/-- `ExecutionResult.execution_time_ms`: `(end_time - start_time) * 1000`. -/
def ExecutionResult.execution_time_ms (r : ExecutionResult) : ℚ :=
  (r.end_time - r.start_time) * 1000

/-- `ExecutionResult.success`: whether `status == ExecutionStatus.SUCCESS`. -/
def ExecutionResult.success (r : ExecutionResult) : Bool :=
  r.status = ExecutionStatus.SUCCESS

/-- The runtime environment as seen through `os.getenv`.  The three keys the
validator reads are stored already parsed (`float(...)` / `int(...)`); `other`
stands for every environment variable the executor never reads. -/
structure Env where
  MIN_PROFIT_USD : Option ℚ := none
  MIN_CONFIDENCE_SCORE : Option ℚ := none
  MAX_GAS_ESTIMATE : Option ℤ := none
  other : List (String × String) := []
deriving DecidableEq, Repr

/-- `HyperActiveSniper._validate_opportunity` (source lines 273-292).  Reads
its three thresholds from the environment on every call, with the source's
defaults `'5'`, `'0.85'`, `'1000000'`. -/
def validate_opportunity (env : Env) (opportunity : Opportunity) : Bool :=
  if opportunity.profit_usd < env.MIN_PROFIT_USD.getD 5 then
    false
  else if opportunity.confidence_score < env.MIN_CONFIDENCE_SCORE.getD (85 / 100) then
    false
  else if opportunity.gas_estimate > env.MAX_GAS_ESTIMATE.getD 1000000 then
    false
  else
    true

/-- Claim C1: the validator returns `true` iff profit ≥ the configured
minimum profit floor, confidence ≥ the configured minimum confidence floor,
and gas ≤ the configured gas ceiling; and the checks are evaluated in that
order with short-circuiting — once the profit check fails the outcome is
`false` no matter what the confidence and gas fields are, and once the
confidence check fails (with the profit check passing) the outcome is
`false` no matter what the gas field is. -/
theorem validator_gate_iff_and_order (env : Env) (o : Opportunity) :
    (validate_opportunity env o = true ↔
      (env.MIN_PROFIT_USD.getD 5 ≤ o.profit_usd ∧
       env.MIN_CONFIDENCE_SCORE.getD (85 / 100) ≤ o.confidence_score ∧
       o.gas_estimate ≤ env.MAX_GAS_ESTIMATE.getD 1000000)) ∧
    (o.profit_usd < env.MIN_PROFIT_USD.getD 5 →
      ∀ c : ℚ, ∀ g : ℤ,
        validate_opportunity env { o with confidence_score := c, gas_estimate := g } = false) ∧
    (env.MIN_PROFIT_USD.getD 5 ≤ o.profit_usd →
      o.confidence_score < env.MIN_CONFIDENCE_SCORE.getD (85 / 100) →
      ∀ g : ℤ, validate_opportunity env { o with gas_estimate := g } = false) := by
  refine ⟨?_, ?_, ?_⟩
  · unfold validate_opportunity
    split
    · simp only [Bool.false_eq_true, false_iff]
      intro h
      exact absurd h.1 (not_le.mpr (by assumption))
    · split
      · simp only [Bool.false_eq_true, false_iff]
        intro h
        exact absurd h.2.1 (not_le.mpr (by assumption))
      · split
        · simp only [Bool.false_eq_true, false_iff]
          intro h
          exact absurd h.2.2 (not_le.mpr (by assumption))
        · simp only [true_iff]
          exact ⟨not_lt.mp (by assumption), not_lt.mp (by assumption), not_lt.mp (by assumption)⟩
  · intro hp c g
    unfold validate_opportunity
    simp only [hp, if_pos]
  · intro hp hc g
    unfold validate_opportunity
    simp only
    rw [if_neg (not_lt.mpr hp), if_pos hc]

/-- The default environment: none of the three validator keys is set, so all
`os.getenv` defaults apply. -/
def defaultEnv : Env :=
  { MIN_PROFIT_USD := none, MIN_CONFIDENCE_SCORE := none,
    MAX_GAS_ESTIMATE := none, other := [] }

/-- A concrete validator-passing opportunity (mirrors the demo opportunities of
`demo_executor`). -/
def sampleOpp : Opportunity :=
  { route_id := "test_route_0", tokens := ["USDC", "WMATIC", "USDC"],
    dexes := ["quickswap", "sushiswap"], input_amount := 1000, expected_output := 1010,
    gas_estimate := 300000, profit_usd := 10, confidence_score := 9 / 10,
    timestamp := 0, chain := "polygon" }

/-- Witness for C1 at a concrete environment and opportunity. -/
theorem validator_gate_iff_and_order_witness :
    validate_opportunity defaultEnv sampleOpp = true :=
  (validator_gate_iff_and_order defaultEnv sampleOpp).1.mpr (by norm_num [defaultEnv, sampleOpp])

/-- Mutable state of a `HyperActiveSniper` worker (its `__init__` fields). -/
structure SniperState where
  sniper_id : ℕ
  lane_id : ℕ
  execution_mode : ExecutionMode
  is_active : Bool := false
  executions_count : ℕ := 0
deriving DecidableEq, Repr

/-- `HyperActiveSniper.__init__`. -/
def SniperState.init (sniper_id lane_id : ℕ) (execution_mode : ExecutionMode) : SniperState :=
  { sniper_id := sniper_id, lane_id := lane_id, execution_mode := execution_mode,
    is_active := false, executions_count := 0 }

/-- The dummy transaction hash built by `_execute_live`:
`"0x" + ''.join(f'{i:02x}' for i in range(32))`. -/
def dummyTxHash : String :=
  "0x000102030405060708090a0b0c0d0e0f101112131415161718191a1b1c1d1e1f"

/-- `HyperActiveSniper._execute_live` (lines 294-314): sleeps ~150 ms, then
returns a `SUCCESS` result with 95% of expected profit and a dummy tx hash.
Returns the result together with the advanced clock. -/
def execute_live (s : SniperState) (o : Opportunity) (start_time clock : ℚ) :
    ExecutionResult × ℚ :=
  let clock2 := clock + 15 / 100
  ({ opportunity := o, status := ExecutionStatus.SUCCESS,
     lane_id := s.lane_id, sniper_id := s.sniper_id,
     start_time := start_time, end_time := clock2,
     tx_hash := some dummyTxHash,
     actual_profit := o.profit_usd * (95 / 100),
     gas_used := o.gas_estimate }, clock2)

/-- `HyperActiveSniper._execute_dev` (lines 316-347): sleeps ~20 ms; `draw`
models `np.random.random() < 0.95`.  On success: 95% of expected profit and
no tx hash; on failure: `FAILED` with message "Simulated failure (price moved)". -/
def execute_dev (s : SniperState) (o : Opportunity) (start_time clock : ℚ) (draw : Bool) :
    ExecutionResult × ℚ :=
  let clock2 := clock + 2 / 100
  if draw then
    ({ opportunity := o, status := ExecutionStatus.SUCCESS,
       lane_id := s.lane_id, sniper_id := s.sniper_id,
       start_time := start_time, end_time := clock2,
       tx_hash := none,
       actual_profit := o.profit_usd * (95 / 100),
       gas_used := o.gas_estimate }, clock2)
  else
    ({ opportunity := o, status := ExecutionStatus.FAILED,
       lane_id := s.lane_id, sniper_id := s.sniper_id,
       start_time := start_time, end_time := clock2,
       error_msg := some "Simulated failure (price moved)" }, clock2)

/-- `HyperActiveSniper._execute_sim` (lines 349-377): sleeps ~1 ms; `draw`
models `np.random.random() < 0.98`.  On success: full expected profit; on
failure: `FAILED` with message "Simulated slippage". -/
def execute_sim (s : SniperState) (o : Opportunity) (start_time clock : ℚ) (draw : Bool) :
    ExecutionResult × ℚ :=
  let clock2 := clock + 1 / 1000
  if draw then
    ({ opportunity := o, status := ExecutionStatus.SUCCESS,
       lane_id := s.lane_id, sniper_id := s.sniper_id,
       start_time := start_time, end_time := clock2,
       actual_profit := o.profit_usd,
       gas_used := o.gas_estimate }, clock2)
  else
    ({ opportunity := o, status := ExecutionStatus.FAILED,
       lane_id := s.lane_id, sniper_id := s.sniper_id,
       start_time := start_time, end_time := clock2,
       error_msg := some "Simulated slippage" }, clock2)

/-- Type of the mode-dispatch step inside `execute_opportunity`'s `try` block:
from the (already incremented) sniper state, the opportunity, the start
instant and the current clock it either returns a result with the advanced
clock, or raises a Python exception — modelled by `Except`, the error carrying
the exception's message and the clock at the instant the exception is caught. -/
def Dispatch : Type :=
  SniperState → Opportunity → ℚ → ℚ → Except (String × ℚ) (ExecutionResult × ℚ)

/-- The concrete mode dispatch of `execute_opportunity` (lines 233-239):
`if/elif` on `self.execution_mode` selecting `_execute_live` / `_execute_dev`
/ `_execute_sim`.  None of the three raises, so the result is always `.ok`. -/
def modeDispatch (draw : Bool) : Dispatch :=
  fun s o start_time clock =>
    Except.ok
      (match s.execution_mode with
        | ExecutionMode.LIVE => execute_live s o start_time clock
        | ExecutionMode.DEV => execute_dev s o start_time clock draw
        | ExecutionMode.SIM => execute_sim s o start_time clock draw)

/-- `HyperActiveSniper.execute_opportunity` (lines 201-271), parametrised by
the dispatch step so that the `except Exception` branch (lines 260-271) is
reachable in the model.  Steps, as in the source: record `start_time`,
increment `executions_count`, run the validator — on failure return a
`REJECTED` result with `error_msg = "Opportunity failed validation"` (the
second `time.time()` call reads the unadvanced clock) — otherwise dispatch on
the mode; if the dispatch raises, catch and return a `FAILED` result carrying
the exception's message.  Returns (result, final clock, final sniper state). -/
def execute_opportunityWith (env : Env) (s : SniperState) (o : Opportunity) (clock : ℚ)
    (dispatch : Dispatch) : ExecutionResult × ℚ × SniperState :=
  let start_time := clock
  let s2 := { s with executions_count := s.executions_count + 1 }
  if validate_opportunity env o then
    match dispatch s2 o start_time clock with
    | Except.ok (result, clock2) => (result, clock2, s2)
    | Except.error (e, clock2) =>
        ({ opportunity := o, status := ExecutionStatus.FAILED,
           lane_id := s2.lane_id, sniper_id := s2.sniper_id,
           start_time := start_time, end_time := clock2,
           error_msg := some e }, clock2, s2)
  else
    ({ opportunity := o, status := ExecutionStatus.REJECTED,
       lane_id := s2.lane_id, sniper_id := s2.sniper_id,
       start_time := start_time, end_time := clock,
       error_msg := some "Opportunity failed validation" }, clock, s2)

/-- `HyperActiveSniper.execute_opportunity` with the concrete (non-raising)
mode dispatch of the source. -/
def execute_opportunity (env : Env) (s : SniperState) (o : Opportunity) (clock : ℚ)
    (draw : Bool) : ExecutionResult × ℚ × SniperState :=
  execute_opportunityWith env s o clock (modeDispatch draw)

/-- Claim C3: when the validator rejects an opportunity, `execute_opportunity`
returns a `REJECTED` result whose end instant equals its start instant, the
clock does not advance, and the outcome is the same for every possible mode
dispatch — i.e. no mode dispatch takes place and no mode-specific latency is
incurred. -/
theorem rejected_end_eq_start_no_dispatch (env : Env) (s : SniperState) (o : Opportunity)
    (clock : ℚ) (dispatch : Dispatch) (hv : validate_opportunity env o = false) :
    (execute_opportunityWith env s o clock dispatch).1.status = ExecutionStatus.REJECTED ∧
    (execute_opportunityWith env s o clock dispatch).1.end_time =
      (execute_opportunityWith env s o clock dispatch).1.start_time ∧
    (execute_opportunityWith env s o clock dispatch).2.1 = clock ∧
    (∀ dispatch2 : Dispatch,
      execute_opportunityWith env s o clock dispatch2 =
        execute_opportunityWith env s o clock dispatch) := by
  unfold execute_opportunityWith
  rw [hv]
  refine ⟨rfl, rfl, rfl, ?_⟩
  intro dispatch2
  rfl

/-- A concrete opportunity that fails the profit floor (profit 3 < 5). -/
def lowProfitOpp : Opportunity :=
  { sampleOpp with route_id := "low_profit", profit_usd := 3 }

/-- Witness for C3 at a concrete rejected opportunity. -/
theorem rejected_end_eq_start_no_dispatch_witness :
    (execute_opportunity defaultEnv (SniperState.init 0 0 ExecutionMode.DEV)
        lowProfitOpp 0 true).1.status = ExecutionStatus.REJECTED :=
  (rejected_end_eq_start_no_dispatch defaultEnv (SniperState.init 0 0 ExecutionMode.DEV)
    lowProfitOpp 0 (modeDispatch true)
    (by norm_num [validate_opportunity, defaultEnv, lowProfitOpp, sampleOpp])).1

/-- Claim C4: every exception raised during mode dispatch is caught at the
worker boundary: `execute_opportunity` returns a `FAILED` result whose error
message is the exception's message (and whose end instant is the clock at the
catch), never propagating the exception — the model's return type is total. -/
theorem dispatch_exception_caught (env : Env) (s : SniperState) (o : Opportunity)
    (clock : ℚ) (dispatch : Dispatch) (e : String) (c : ℚ)
    (hv : validate_opportunity env o = true)
    (hd : dispatch { s with executions_count := s.executions_count + 1 } o clock clock =
      Except.error (e, c)) :
    (execute_opportunityWith env s o clock dispatch).1.status = ExecutionStatus.FAILED ∧
    (execute_opportunityWith env s o clock dispatch).1.error_msg = some e ∧
    (execute_opportunityWith env s o clock dispatch).1.end_time = c := by
  unfold execute_opportunityWith
  rw [hv]
  simp only [if_true, hd]
  exact ⟨trivial, trivial, trivial⟩

/-- Witness for C4: a dispatch that raises "boom" at clock 7 is converted into
a `FAILED` result with message "boom". -/
theorem dispatch_exception_caught_witness :
    (execute_opportunityWith defaultEnv (SniperState.init 0 0 ExecutionMode.DEV)
        sampleOpp 0 (fun _ _ _ _ => Except.error ("boom", 7))).1.error_msg = some "boom" :=
  (dispatch_exception_caught defaultEnv (SniperState.init 0 0 ExecutionMode.DEV)
    sampleOpp 0 (fun _ _ _ _ => Except.error ("boom", 7)) "boom" 7
    (by norm_num [validate_opportunity, defaultEnv, sampleOpp]) rfl).2.1

/-- Claim C7: for a validator-passing opportunity, a successful Dev-mode
execution yields realized profit equal to 95% of the expected profit and no
transaction handle, and a successful Sim-mode execution yields realized
profit equal to the full expected profit. -/
theorem dev_sim_success_profit (env : Env) (s : SniperState) (o : Opportunity) (clock : ℚ)
    (hv : validate_opportunity env o = true) :
    (s.execution_mode = ExecutionMode.DEV →
      (execute_opportunity env s o clock true).1.status = ExecutionStatus.SUCCESS ∧
      (execute_opportunity env s o clock true).1.actual_profit = o.profit_usd * (95 / 100) ∧
      (execute_opportunity env s o clock true).1.tx_hash = none) ∧
    (s.execution_mode = ExecutionMode.SIM →
      (execute_opportunity env s o clock true).1.status = ExecutionStatus.SUCCESS ∧
      (execute_opportunity env s o clock true).1.actual_profit = o.profit_usd) := by
  unfold execute_opportunity execute_opportunityWith modeDispatch
  rw [hv]
  constructor
  · intro hm
    simp only [hm, execute_dev, if_true]
    exact ⟨trivial, trivial, trivial⟩
  · intro hm
    simp only [hm, execute_sim, if_true]
    exact ⟨trivial, trivial⟩

/-- Witness for C7 at a concrete opportunity, in both modes. -/
theorem dev_sim_success_profit_witness :
    (execute_opportunity defaultEnv (SniperState.init 0 0 ExecutionMode.DEV)
        sampleOpp 0 true).1.actual_profit = 10 * (95 / 100) ∧
    (execute_opportunity defaultEnv (SniperState.init 1 0 ExecutionMode.SIM)
        sampleOpp 0 true).1.actual_profit = 10 :=
  ⟨((dev_sim_success_profit defaultEnv (SniperState.init 0 0 ExecutionMode.DEV)
      sampleOpp 0 (by norm_num [validate_opportunity, defaultEnv, sampleOpp])).1 rfl).2.1,
   ((dev_sim_success_profit defaultEnv (SniperState.init 1 0 ExecutionMode.SIM)
      sampleOpp 0 (by norm_num [validate_opportunity, defaultEnv, sampleOpp])).2 rfl).2⟩

/-- Append to a `deque(maxlen=n)`: the new element goes to the back and the
front is dropped once the length exceeds `n`. -/
def dequeAppend (maxlen : ℕ) (xs : List ℚ) (x : ℚ) : List ℚ :=
  let ys := xs ++ [x]
  ys.drop (ys.length - maxlen)

/-- Metrics tracking for a single execution lane (`LaneMetrics.__init__`,
lines 121-133).  `execution_times` is the `deque(maxlen=100)`;
`last_execution_time` records the instant of the last `datetime.now()`. -/
structure LaneMetrics where
  lane_id : ℕ
  total_opportunities : ℕ := 0
  total_executions : ℕ := 0
  successful_executions : ℕ := 0
  failed_executions : ℕ := 0
  total_profit : ℚ := 0
  total_gas_used : ℤ := 0
  execution_times : List ℚ := []
  last_execution_time : Option ℚ := none
deriving DecidableEq, Repr

/-- `LaneMetrics.__init__`. -/
def LaneMetrics.init (lane_id : ℕ) : LaneMetrics :=
  { lane_id := lane_id }

/-- `LaneMetrics.record_execution` (lines 135-147).  `now` models the
`datetime.now()` call. -/
def LaneMetrics.record_execution (m : LaneMetrics) (result : ExecutionResult)
    (now : ℚ) : LaneMetrics :=
  let m1 := { m with total_executions := m.total_executions + 1 }
  let m2 :=
    if result.success then
      { m1 with successful_executions := m1.successful_executions + 1,
                total_profit := m1.total_profit + result.actual_profit }
    else
      { m1 with failed_executions := m1.failed_executions + 1 }
  { m2 with total_gas_used := m2.total_gas_used + result.gas_used,
            execution_times := dequeAppend 100 m2.execution_times result.execution_time_ms,
            last_execution_time := some now }

/-- `LaneMetrics.success_rate` (lines 149-154). -/
def LaneMetrics.success_rate (m : LaneMetrics) : ℚ :=
  if m.total_executions = 0 then 0
  else (m.successful_executions : ℚ) / (m.total_executions : ℚ)

/-- Record a sequence of execution results (each paired with its
`datetime.now()` instant), in order. -/
def LaneMetrics.recordAll (m : LaneMetrics) (rs : List (ExecutionResult × ℚ)) : LaneMetrics :=
  rs.foldl (fun acc p => acc.record_execution p.1 p.2) m

theorem recordAll_total_executions (m : LaneMetrics) (rs : List (ExecutionResult × ℚ)) :
    (m.recordAll rs).total_executions = m.total_executions + rs.length := by
  induction rs generalizing m with
  | nil => simp [LaneMetrics.recordAll]
  | cons p rest ih =>
    show ((m.record_execution p.1 p.2).recordAll rest).total_executions = _
    rw [ih]
    unfold LaneMetrics.record_execution
    split <;> simp <;> omega

theorem recordAll_successful (m : LaneMetrics) (rs : List (ExecutionResult × ℚ)) :
    (m.recordAll rs).successful_executions =
      m.successful_executions + (rs.filter (fun p => p.1.success)).length := by
  induction rs generalizing m with
  | nil => simp [LaneMetrics.recordAll]
  | cons p rest ih =>
    show ((m.record_execution p.1 p.2).recordAll rest).successful_executions = _
    rw [ih]
    unfold LaneMetrics.record_execution
    by_cases h : p.1.success
    · simp [h, List.filter_cons]
      omega
    · simp [h, List.filter_cons]

theorem recordAll_failed (m : LaneMetrics) (rs : List (ExecutionResult × ℚ)) :
    (m.recordAll rs).failed_executions =
      m.failed_executions + (rs.filter (fun p => !p.1.success)).length := by
  induction rs generalizing m with
  | nil => simp [LaneMetrics.recordAll]
  | cons p rest ih =>
    show ((m.record_execution p.1 p.2).recordAll rest).failed_executions = _
    rw [ih]
    unfold LaneMetrics.record_execution
    by_cases h : p.1.success
    · simp [h, List.filter_cons]
    · simp [h, List.filter_cons]
      omega

theorem recordAll_total_profit (m : LaneMetrics) (rs : List (ExecutionResult × ℚ)) :
    (m.recordAll rs).total_profit =
      m.total_profit + ((rs.filter (fun p => p.1.success)).map (fun p => p.1.actual_profit)).sum := by
  induction rs generalizing m with
  | nil => simp [LaneMetrics.recordAll]
  | cons p rest ih =>
    show ((m.record_execution p.1 p.2).recordAll rest).total_profit = _
    rw [ih]
    unfold LaneMetrics.record_execution
    by_cases h : p.1.success
    · simp [h, List.filter_cons]
      ring
    · simp [h, List.filter_cons]

theorem filter_length_partition {α : Type} (q : α → Bool) (xs : List α) :
    (xs.filter q).length + (xs.filter (fun a => !(q a))).length = xs.length := by
  induction xs with
  | nil => simp
  | cons a rest ih =>
    by_cases h : q a <;> simp [List.filter_cons, h] <;> omega

/-- Claim C5: starting from fresh metrics, after recording `k` results with
status `SUCCESS` and `m` results with any non-success status, the lane's
`success_rate` equals `k/(k+m)` (and `0` when `k+m = 0`), and `total_profit`
equals the sum of the `actual_profit` of the successful results only. -/
theorem lane_metrics_rate_and_profit (lid : ℕ) (rs : List (ExecutionResult × ℚ)) :
    ((LaneMetrics.init lid).recordAll rs).success_rate =
      (if ((rs.filter (fun p => p.1.success)).length +
            (rs.filter (fun p => !p.1.success)).length) = 0 then 0
       else ((rs.filter (fun p => p.1.success)).length : ℚ) /
            (((rs.filter (fun p => p.1.success)).length +
              (rs.filter (fun p => !p.1.success)).length : ℕ) : ℚ)) ∧
    ((LaneMetrics.init lid).recordAll rs).total_profit =
      ((rs.filter (fun p => p.1.success)).map (fun p => p.1.actual_profit)).sum := by
  have hk := recordAll_successful (LaneMetrics.init lid) rs
  have ht := recordAll_total_executions (LaneMetrics.init lid) rs
  have hp := recordAll_total_profit (LaneMetrics.init lid) rs
  have hpart2 : (rs.filter (fun p => p.1.success)).length +
      (rs.filter (fun p => !p.1.success)).length = rs.length :=
    filter_length_partition _ rs
  constructor
  · unfold LaneMetrics.success_rate
    rw [hk, ht, hpart2]
    simp [LaneMetrics.init]
  · rw [hp]
    simp [LaneMetrics.init]

/-- Claim C10: recording any result whose status is not `SUCCESS` — in
particular a `REJECTED` result from the validator gate — increments both
`failed_executions` and `total_executions`; consequently, when the metrics
are consistent and at least one success has been recorded, the reported
success rate strictly decreases. -/
theorem non_success_counts_as_failure (m : LaneMetrics) (r : ExecutionResult) (now : ℚ)
    (hs : r.status ≠ ExecutionStatus.SUCCESS) :
    (m.record_execution r now).failed_executions = m.failed_executions + 1 ∧
    (m.record_execution r now).total_executions = m.total_executions + 1 ∧
    (0 < m.successful_executions → m.successful_executions ≤ m.total_executions →
      (m.record_execution r now).success_rate < m.success_rate) := by
  have hsb : r.success = false := by
    unfold ExecutionResult.success
    exact decide_eq_false hs
  unfold LaneMetrics.record_execution
  rw [hsb]
  refine ⟨rfl, rfl, ?_⟩
  intro hpos hle
  have htpos : 0 < m.total_executions := lt_of_lt_of_le hpos hle
  unfold LaneMetrics.success_rate
  simp only [Bool.false_eq_true, if_false]
  rw [if_neg (show ¬(m.total_executions + 1 = 0) by omega),
      if_neg (show ¬(m.total_executions = 0) by omega)]
  apply div_lt_div_of_pos_left
  · exact_mod_cast hpos
  · exact_mod_cast htpos
  · exact_mod_cast Nat.lt_succ_self m.total_executions

/-- Witness for C10: recording a `REJECTED` result on metrics holding one
success out of one execution drops the success rate below 1. -/
theorem non_success_counts_as_failure_witness :
    (({ lane_id := 0, total_executions := 1, successful_executions := 1 :
        LaneMetrics }).record_execution
      { opportunity := sampleOpp, status := ExecutionStatus.REJECTED, lane_id := 0,
        sniper_id := 0, start_time := 0, end_time := 0 } 0).failed_executions = 1 :=
  (non_success_counts_as_failure
    { lane_id := 0, total_executions := 1, successful_executions := 1 }
    { opportunity := sampleOpp, status := ExecutionStatus.REJECTED, lane_id := 0,
      sniper_id := 0, start_time := 0, end_time := 0 } 0 (by decide)).1

/-- `queue_sizes.index(min(queue_sizes))`: the index of the first occurrence
of the minimum.  On the empty list (unreachable — a lane always owns 4
queues) Python's `min` would raise; the model returns 0. -/
def minQueueIdx (sizes : List ℕ) : ℕ :=
  match sizes.min? with
  | none => 0
  | some mn => sizes.indexOf mn

/-- Single execution lane (`ExecutionLane.__init__`, lines 386-401): metrics,
4 snipers, 4 opportunity queues, and the running flag. -/
structure ExecutionLane where
  lane_id : ℕ
  execution_mode : ExecutionMode
  metrics : LaneMetrics
  snipers : List SniperState
  queues : List (List Opportunity)
  is_running : Bool := false
deriving DecidableEq, Repr

/-- `ExecutionLane.__init__`. -/
def ExecutionLane.init (lane_id : ℕ) (execution_mode : ExecutionMode) : ExecutionLane :=
  { lane_id := lane_id, execution_mode := execution_mode,
    metrics := LaneMetrics.init lane_id,
    snipers := (List.range 4).map (fun i => SniperState.init i lane_id execution_mode),
    queues := List.replicate 4 [],
    is_running := false }

/-- `ExecutionLane.add_opportunity` (lines 403-415): bump
`metrics.total_opportunities`, then put the opportunity on the queue with the
smallest current size (first such index). -/
def ExecutionLane.add_opportunity (l : ExecutionLane) (opportunity : Opportunity) :
    ExecutionLane :=
  let metrics2 := { l.metrics with total_opportunities := l.metrics.total_opportunities + 1 }
  let queue_sizes := l.queues.map List.length
  let min_queue_idx := minQueueIdx queue_sizes
  { l with metrics := metrics2,
           queues := l.queues.set min_queue_idx
             ((l.queues.getD min_queue_idx []) ++ [opportunity]) }

theorem getD_map_length (l : List (List Opportunity)) (j : ℕ) :
    (l.map List.length).getD j 0 = (l.getD j []).length := by
  induction l generalizing j with
  | nil => simp
  | cons x xs ih =>
    cases j with
    | zero => simp
    | succ n => simpa using ih n

theorem getD_ne_of_lt_indexOf {α : Type} [DecidableEq α] (l : List α) (a d : α) :
    ∀ j, j < l.indexOf a → l.getD j d ≠ a := by
  induction l with
  | nil =>
    intro j hj
    simp [List.indexOf] at hj
  | cons x xs ih =>
    intro j hj
    by_cases hxa : x = a
    · rw [List.indexOf_cons_eq xs hxa] at hj
      omega
    · rw [List.indexOf_cons_ne xs hxa] at hj
      cases j with
      | zero => simpa using hxa
      | succ n =>
        have hn : n < xs.indexOf a := Nat.lt_of_succ_lt_succ hj
        simpa using ih n hn

theorem minQueueIdx_lt_length (sizes : List ℕ) (h : sizes ≠ []) :
    minQueueIdx sizes < sizes.length := by
  cases hm : sizes.min? with
  | none => exact absurd (List.min?_eq_none_iff.mp hm) h
  | some mn =>
    have mem : mn ∈ sizes := List.min?_mem (fun a b => min_choice a b) hm
    simp only [minQueueIdx, hm]
    exact List.indexOf_lt_length.mpr mem

theorem minQueueIdx_getD_eq_min (sizes : List ℕ) (mn : ℕ) (hm : sizes.min? = some mn) :
    sizes.getD (minQueueIdx sizes) 0 = mn := by
  have mem : mn ∈ sizes := List.min?_mem (fun a b => min_choice a b) hm
  have hlt : sizes.indexOf mn < sizes.length := List.indexOf_lt_length.mpr mem
  simp only [minQueueIdx, hm]
  rw [List.getD_eq_getElem _ _ hlt]
  exact List.getElem_indexOf hlt

theorem minQueueIdx_getD_le (sizes : List ℕ) (h : sizes ≠ []) (j : ℕ)
    (hj : j < sizes.length) :
    sizes.getD (minQueueIdx sizes) 0 ≤ sizes.getD j 0 := by
  cases hm : sizes.min? with
  | none => exact absurd (List.min?_eq_none_iff.mp hm) h
  | some mn =>
    rw [minQueueIdx_getD_eq_min sizes mn hm]
    have hle : ∀ b, b ∈ sizes → mn ≤ b :=
      (List.le_min?_iff (fun a b c => le_min_iff) hm).mp (le_refl mn)
    rw [List.getD_eq_getElem _ _ hj]
    exact hle _ (List.getElem_mem hj)

theorem minQueueIdx_first_min (sizes : List ℕ) (h : sizes ≠ []) (j : ℕ)
    (hj : j < minQueueIdx sizes) :
    sizes.getD (minQueueIdx sizes) 0 < sizes.getD j 0 := by
  cases hm : sizes.min? with
  | none => exact absurd (List.min?_eq_none_iff.mp hm) h
  | some mn =>
    have hjlen : j < sizes.length := lt_trans hj (minQueueIdx_lt_length sizes h)
    have hne : sizes.getD j 0 ≠ mn := by
      have := getD_ne_of_lt_indexOf sizes mn 0 j (by simpa [minQueueIdx, hm] using hj)
      exact this
    have hle : mn ≤ sizes.getD j 0 := by
      have hall : ∀ b, b ∈ sizes → mn ≤ b :=
        (List.le_min?_iff (fun a b c => le_min_iff) hm).mp (le_refl mn)
      rw [List.getD_eq_getElem _ _ hjlen]
      exact hall _ (List.getElem_mem hjlen)
    rw [minQueueIdx_getD_eq_min sizes mn hm]
    exact lt_of_le_of_ne hle (Ne.symm hne)

/-- Claim C6: `add_opportunity` appends the opportunity to the queue with the
fewest currently-buffered items, breaking ties by lowest queue index, and
increments the lane's received counter (`metrics.total_opportunities`) by
exactly one.  `i` is the chosen index: it is in range, its queue is no longer
than any queue, every lower-indexed queue is strictly longer, the chosen
queue gets the opportunity appended, and the counter goes up by one. -/
theorem least_loaded_enqueue (l : ExecutionLane) (o : Opportunity)
    (hq : l.queues ≠ []) :
    minQueueIdx (l.queues.map List.length) < l.queues.length ∧
    (∀ j, j < l.queues.length →
      (l.queues.getD (minQueueIdx (l.queues.map List.length)) []).length ≤
        (l.queues.getD j []).length) ∧
    (∀ j, j < minQueueIdx (l.queues.map List.length) →
      (l.queues.getD j []).length >
        (l.queues.getD (minQueueIdx (l.queues.map List.length)) []).length) ∧
    (l.add_opportunity o).queues =
      l.queues.set (minQueueIdx (l.queues.map List.length))
        ((l.queues.getD (minQueueIdx (l.queues.map List.length)) []) ++ [o]) ∧
    (l.add_opportunity o).metrics.total_opportunities =
      l.metrics.total_opportunities + 1 := by
  have hsz : l.queues.map List.length ≠ [] := by
    intro hcon
    exact hq (List.map_eq_nil_iff.mp hcon)
  have hlen : (l.queues.map List.length).length = l.queues.length := List.length_map _ _
  refine ⟨?_, ?_, ?_, ?_, ?_⟩
  · have := minQueueIdx_lt_length _ hsz
    omega
  · intro j hj
    have := minQueueIdx_getD_le (l.queues.map List.length) hsz j (by omega)
    rwa [getD_map_length, getD_map_length] at this
  · intro j hj
    have := minQueueIdx_first_min (l.queues.map List.length) hsz j hj
    rw [getD_map_length, getD_map_length] at this
    omega
  · rfl
  · rfl

/-- A concrete lane whose queue occupancies are `[3, 1, 2, 1]`. -/
def laneC6 : ExecutionLane :=
  { lane_id := 0, execution_mode := ExecutionMode.DEV, metrics := LaneMetrics.init 0,
    snipers := (List.range 4).map (fun i => SniperState.init i 0 ExecutionMode.DEV),
    queues := [List.replicate 3 sampleOpp, [sampleOpp], List.replicate 2 sampleOpp,
               [sampleOpp]],
    is_running := true }

/-- Witness for C6: with queue occupancies `[3, 1, 2, 1]`, the chosen queue
index is 1 (lowest index among the minimum), the opportunity is appended
there, and the received counter goes up by one. -/
theorem least_loaded_enqueue_witness :
    minQueueIdx (laneC6.queues.map List.length) = 1 ∧
    (laneC6.add_opportunity lowProfitOpp).queues =
      laneC6.queues.set 1 ((laneC6.queues.getD 1 []) ++ [lowProfitOpp]) ∧
    (laneC6.add_opportunity lowProfitOpp).metrics.total_opportunities =
      laneC6.metrics.total_opportunities + 1 :=
  ⟨rfl,
   (least_loaded_enqueue laneC6 lowProfitOpp (by simp [laneC6])).2.2.2.1,
   (least_loaded_enqueue laneC6 lowProfitOpp (by simp [laneC6])).2.2.2.2⟩

/-- Quad-lane executor (`QuadLaneExecutor.__init__`, lines 482-510): four
lanes, running flag, start instant and the overall received counter. -/
structure QuadLaneExecutor where
  execution_mode : ExecutionMode
  lanes : List ExecutionLane
  is_running : Bool := false
  start_time : Option ℚ := none
  total_opportunities_received : ℕ := 0
deriving DecidableEq, Repr

/-- `QuadLaneExecutor.__init__`. -/
def QuadLaneExecutor.init (execution_mode : ExecutionMode) : QuadLaneExecutor :=
  { execution_mode := execution_mode,
    lanes := (List.range 4).map (fun i => ExecutionLane.init i execution_mode),
    is_running := false, start_time := none, total_opportunities_received := 0 }

/-- `QuadLaneExecutor.submit_opportunity` (lines 512-526): increment the
received counter, choose lane `total_opportunities_received % 4` (the counter
value after the increment), and delegate to that lane's `add_opportunity`.
Returns the chosen lane index together with the new engine state.  (The
`getD` default is unreachable: the engine always owns 4 lanes and the chosen
index is below 4.) -/
def QuadLaneExecutor.submit_opportunity (e : QuadLaneExecutor) (o : Opportunity) :
    ℕ × QuadLaneExecutor :=
  let total := e.total_opportunities_received + 1
  let lane_idx := total % 4
  (lane_idx,
   { e with total_opportunities_received := total,
            lanes := e.lanes.set lane_idx
              ((e.lanes.getD lane_idx
                  (ExecutionLane.init lane_idx e.execution_mode)).add_opportunity o) })

/-- Submit a list of opportunities sequentially, collecting the chosen lane
index of each submission. -/
def submitTrace (e : QuadLaneExecutor) (os : List Opportunity) :
    List ℕ × QuadLaneExecutor :=
  match os with
  | [] => ([], e)
  | o :: rest =>
    let p := e.submit_opportunity o
    let q := submitTrace p.2 rest
    (p.1 :: q.1, q.2)

/-- Counterexample to C2 as stated: from a fresh engine, the 0th submitted
opportunity goes to lane 1, not lane `0 mod 4 = 0` — observable both in the
trace of chosen lane indices and in the per-lane received counters. -/
theorem round_robin_counterexample :
    (submitTrace (QuadLaneExecutor.init ExecutionMode.DEV) [sampleOpp]).1 = [1] ∧
    (((QuadLaneExecutor.init ExecutionMode.DEV).submit_opportunity sampleOpp).2.lanes.map
      (fun l => l.metrics.total_opportunities)) = [0, 1, 0, 0] ∧
    (1 : ℕ) ≠ 0 % 4 := by
  refine ⟨rfl, rfl, by decide⟩

/-- Claim C2, amended: when `N` opportunities are submitted sequentially, the
`i`-th opportunity (0-indexed) is assigned to lane `(c + i + 1) mod 4` where
`c` is the engine's received counter before the submissions (so `(i + 1) mod
4` from a fresh engine), and the received counter increases by exactly one
per submission (strict monotonicity). -/
theorem round_robin_shifted (e : QuadLaneExecutor) (os : List Opportunity) :
    (submitTrace e os).1 =
      (List.range os.length).map
        (fun i => (e.total_opportunities_received + i + 1) % 4) ∧
    (submitTrace e os).2.total_opportunities_received =
      e.total_opportunities_received + os.length := by
  induction os generalizing e with
  | nil => simp [submitTrace]
  | cons o rest ih =>
    have h1 : (e.submit_opportunity o).2.total_opportunities_received =
        e.total_opportunities_received + 1 := rfl
    have ihx := ih (e.submit_opportunity o).2
    rw [h1] at ihx
    constructor
    · show (e.submit_opportunity o).1 ::
        (submitTrace (e.submit_opportunity o).2 rest).1 = _
      rw [ihx.1]
      rw [List.length_cons, List.range_succ_eq_map, List.map_cons, List.map_map]
      refine List.cons_eq_cons.mpr ⟨rfl, ?_⟩
      apply List.map_congr_left
      intro i _
      simp only [Function.comp]
      congr 1
      omega
    · show (submitTrace (e.submit_opportunity o).2 rest).2.total_opportunities_received = _
      rw [ihx.2, List.length_cons]
      omega

/-- An environment with a raised profit floor (`MIN_PROFIT_USD=20`). -/
def envHighFloor : Env :=
  { MIN_PROFIT_USD := some 20, MIN_CONFIDENCE_SCORE := none,
    MAX_GAS_ESTIMATE := none, other := [] }

/-- An environment equal to the default except for environment variables the
validator never reads. -/
def envOtherVars : Env :=
  { MIN_PROFIT_USD := none, MIN_CONFIDENCE_SCORE := none,
    MAX_GAS_ESTIMATE := none, other := [("MODE", "LIVE"), ("LOG_LEVEL", "debug")] }

/-- Counterexample to C8 as stated: the validator re-reads `MIN_PROFIT_USD`
from the environment on every call, so two Validate calls on the same
opportunity disagree when the environment changes between the calls. -/
theorem config_construction_time_counterexample :
    validate_opportunity defaultEnv sampleOpp = true ∧
    validate_opportunity envHighFloor sampleOpp = false := by
  constructor
  · norm_num [validate_opportunity, defaultEnv, sampleOpp]
  · norm_num [validate_opportunity, envHighFloor, sampleOpp]

/-- Claim C8, amended: the validator's three thresholds are read from the
environment at each call (not consumed at construction time only); whenever
the three configuration values are unchanged between two Validate calls on
the same opportunity, the two calls return the same result — in particular,
changes to environment variables the validator does not read cannot affect
the result. -/
theorem validate_depends_only_on_config (env1 env2 : Env) (o : Opportunity)
    (h1 : env1.MIN_PROFIT_USD = env2.MIN_PROFIT_USD)
    (h2 : env1.MIN_CONFIDENCE_SCORE = env2.MIN_CONFIDENCE_SCORE)
    (h3 : env1.MAX_GAS_ESTIMATE = env2.MAX_GAS_ESTIMATE) :
    validate_opportunity env1 o = validate_opportunity env2 o := by
  unfold validate_opportunity
  rw [h1, h2, h3]

/-- Witness for the amended C8: changing only unrelated environment variables
leaves the validator's verdict unchanged. -/
theorem validate_depends_only_on_config_witness :
    validate_opportunity defaultEnv sampleOpp =
      validate_opportunity envOtherVars sampleOpp :=
  validate_depends_only_on_config defaultEnv envOtherVars sampleOpp rfl rfl rfl

/-- The state change of `ExecutionLane.start` (lines 445-456) together with
the `worker_loop` entry (line 419): the lane's running flag is raised and
each sniper marks itself active. -/
def ExecutionLane.startLane (l : ExecutionLane) : ExecutionLane :=
  { l with is_running := true,
           snipers := l.snipers.map (fun s => { s with is_active := true }) }

/-- The flag-clearing half of `ExecutionLane.stop` (lines 458-465).  The
second half, `await queue.join()` for each queue, blocks until every queue
has been drained and every dequeued item marked done; the model expresses
that completion condition through `sumQueued` below. -/
def ExecutionLane.stopSignal (l : ExecutionLane) : ExecutionLane :=
  { l with is_running := false }

/-- One iteration of `ExecutionLane.worker_loop` (lines 417-443) for worker
`w` (sniper `w` is paired with queue `w` by `start`'s `zip`): a loop whose
sniper has already exited does nothing; if `is_running` is false at the top
of the `while`, the loop exits and marks its sniper inactive; otherwise the
worker either times out on an empty queue (no state change) or dequeues the
head of its queue, executes it, and records the result in the lane metrics. -/
def ExecutionLane.workerStep (l : ExecutionLane) (env : Env) (w : ℕ) (clock : ℚ)
    (draw : Bool) : ExecutionLane × ℚ :=
  let s := l.snipers.getD w (SniperState.init w l.lane_id l.execution_mode)
  if s.is_active = false then (l, clock)
  else if l.is_running = false then
    ({ l with snipers := l.snipers.set w { s with is_active := false } }, clock)
  else
    match l.queues.getD w [] with
    | [] => (l, clock)
    | o :: rest =>
      let out := execute_opportunity env s o clock draw
      ({ l with queues := l.queues.set w rest,
                snipers := l.snipers.set w out.2.2,
                metrics := l.metrics.record_execution out.1 out.2.1 }, out.2.1)

/-- `QuadLaneExecutor.start` (lines 528-554): no-op when already running,
otherwise raise the engine flag, record the start instant and start every
lane's workers. -/
def QuadLaneExecutor.start (e : QuadLaneExecutor) (clock : ℚ) : QuadLaneExecutor :=
  if e.is_running then e
  else { e with is_running := true, start_time := some clock,
                lanes := e.lanes.map ExecutionLane.startLane }

/-- The signalling part of `QuadLaneExecutor.stop` (lines 556-572): no-op when
not running, otherwise clear the engine flag and every lane's flag.  The
subsequent per-lane `queue.join()` calls block until that lane's queues are
drained. -/
def QuadLaneExecutor.stopSignal (e : QuadLaneExecutor) : QuadLaneExecutor :=
  if e.is_running = false then e
  else { e with is_running := false, lanes := e.lanes.map ExecutionLane.stopSignal }

/-- Sum of `total_executions` over all lanes — the aggregate execution count
of `get_overall_metrics` (line 578). -/
def sumTotalExecutions (e : QuadLaneExecutor) : ℕ :=
  (e.lanes.map (fun l => l.metrics.total_executions)).sum

/-- Number of opportunities currently buffered in a lane's queues. -/
def laneQueued (l : ExecutionLane) : ℕ :=
  (l.queues.map List.length).sum

/-- Total number of opportunities currently buffered across the engine. -/
def sumQueued (e : QuadLaneExecutor) : ℕ :=
  (e.lanes.map laneQueued).sum

/-- The whole system: the environment, the engine state and the logical
clock. -/
structure EngineSys where
  env : Env
  exec : QuadLaneExecutor
  clock : ℚ

/-- One scheduler action: a caller submits an opportunity, the engine's stop
is signalled, or worker `worker` of lane `lane` runs one loop iteration
(with `draw` the outcome of its random draw). -/
inductive SysAction where
  | submit (o : Opportunity)
  | stopSignal
  | work (lane worker : ℕ) (draw : Bool)

/-- Small-step semantics of the engine under an arbitrary scheduler. -/
def sysStep (s : EngineSys) (a : SysAction) : EngineSys :=
  match a with
  | SysAction.submit o => { s with exec := (s.exec.submit_opportunity o).2 }
  | SysAction.stopSignal => { s with exec := s.exec.stopSignal }
  | SysAction.work li w draw =>
    if li < s.exec.lanes.length then
      let lane := s.exec.lanes.getD li (ExecutionLane.init li s.exec.execution_mode)
      let out := lane.workerStep s.env w s.clock draw
      { s with exec := { s.exec with lanes := s.exec.lanes.set li out.1 },
               clock := out.2 }
    else s

/-- Run a finite schedule. -/
def sysRun (s : EngineSys) (acts : List SysAction) : EngineSys :=
  acts.foldl sysStep s

theorem sum_map_set_eq {α : Type} (f : α → ℕ) (d : α) :
    ∀ (xs : List α) (i : ℕ) (x : α), f x = f (xs.getD i d) →
      ((xs.set i x).map f).sum = (xs.map f).sum := by
  intro xs
  induction xs with
  | nil => intro i x _; rfl
  | cons a as ih =>
    intro i x h
    cases i with
    | zero => simp at h; simp [h]
    | succ n =>
      simp only [List.set_cons_succ, List.map_cons, List.sum_cons]
      rw [ih n x (by simpa using h)]

theorem sum_set_ge :
    ∀ (xs : List ℕ) (i : ℕ) (y : ℕ), xs.getD i 0 ≤ y → xs.sum ≤ (xs.set i y).sum := by
  intro xs
  induction xs with
  | nil => intro i y _; exact le_refl _
  | cons a as ih =>
    intro i y h
    cases i with
    | zero =>
      simp at h
      simp only [List.set_cons_zero, List.sum_cons]
      omega
    | succ n =>
      simp only [List.set_cons_succ, List.sum_cons]
      have := ih n y (by simpa using h)
      omega

theorem sum_map_set_ge {α : Type} (f : α → ℕ) (d : α) :
    ∀ (xs : List α) (i : ℕ) (x : α), f (xs.getD i d) ≤ f x →
      (xs.map f).sum ≤ ((xs.set i x).map f).sum := by
  intro xs
  induction xs with
  | nil => intro i x _; exact le_refl _
  | cons a as ih =>
    intro i x h
    cases i with
    | zero =>
      simp at h
      simp only [List.set_cons_zero, List.map_cons, List.sum_cons]
      omega
    | succ n =>
      simp only [List.set_cons_succ, List.map_cons, List.sum_cons]
      have := ih n x (by simpa using h)
      omega

theorem workerStep_stopped (l : ExecutionLane) (env : Env) (w : ℕ) (clock : ℚ)
    (draw : Bool) (h : l.is_running = false) :
    (l.workerStep env w clock draw).1.metrics = l.metrics ∧
    (l.workerStep env w clock draw).1.is_running = false ∧
    (l.workerStep env w clock draw).1.queues = l.queues := by
  simp only [ExecutionLane.workerStep]
  by_cases ha :
      (l.snipers.getD w (SniperState.init w l.lane_id l.execution_mode)).is_active = false
  · rw [if_pos ha]
    exact ⟨rfl, h, rfl⟩
  · rw [if_neg ha, if_pos h]
    exact ⟨rfl, h, rfl⟩

theorem add_opportunity_preserves (l : ExecutionLane) (o : Opportunity) :
    (l.add_opportunity o).is_running = l.is_running ∧
    (l.add_opportunity o).metrics.total_executions = l.metrics.total_executions ∧
    laneQueued l ≤ laneQueued (l.add_opportunity o) := by
  refine ⟨rfl, rfl, ?_⟩
  unfold laneQueued ExecutionLane.add_opportunity
  simp only
  rw [List.map_set]
  apply sum_set_ge
  rw [getD_map_length]
  simp

/-- The invariant behind C9: once every lane's running flag is down, no
worker can dequeue any more, so the aggregate execution count is frozen and
the buffered opportunities never drain. -/
def stoppedInv (s : EngineSys) : Prop :=
  (∀ l ∈ s.exec.lanes, l.is_running = false) ∧
  sumTotalExecutions s.exec = 0 ∧ 1 ≤ sumQueued s.exec

theorem stoppedInv_step (s : EngineSys) (a : SysAction) (h : stoppedInv s) :
    stoppedInv (sysStep s a) := by
  obtain ⟨hstop, hexec, hqueued⟩ := h
  cases a with
  | submit o =>
    refine ⟨?_, ?_, ?_⟩
    · intro l hl
      rcases List.mem_or_eq_of_mem_set hl with hmem | heq
      · exact hstop l hmem
      · rw [heq]
        exact (add_opportunity_preserves _ o).1.trans
          (by
            by_cases hr : ((s.exec.total_opportunities_received + 1) % 4) <
                s.exec.lanes.length
            · exact hstop _ (by
                rw [List.getD_eq_getElem _ _ hr]
                exact List.getElem_mem hr)
            · rw [List.getD_eq_default _ _ (by omega)]
              rfl)
    · show sumTotalExecutions (s.exec.submit_opportunity o).2 = 0
      unfold sumTotalExecutions QuadLaneExecutor.submit_opportunity
      simp only
      rw [sum_map_set_eq _
        (ExecutionLane.init ((s.exec.total_opportunities_received + 1) % 4)
          s.exec.execution_mode) _ _ _ (add_opportunity_preserves _ o).2.1]
      exact hexec
    · show 1 ≤ sumQueued (s.exec.submit_opportunity o).2
      unfold sumQueued QuadLaneExecutor.submit_opportunity
      simp only
      calc 1 ≤ sumQueued s.exec := hqueued
        _ ≤ _ := sum_map_set_ge laneQueued
            (ExecutionLane.init ((s.exec.total_opportunities_received + 1) % 4)
              s.exec.execution_mode) _ _ _ (add_opportunity_preserves _ o).2.2
  | stopSignal =>
    unfold sysStep QuadLaneExecutor.stopSignal
    by_cases hr : s.exec.is_running = false
    · rw [if_pos hr]
      exact ⟨hstop, hexec, hqueued⟩
    · rw [if_neg hr]
      refine ⟨?_, ?_, ?_⟩
      · intro l hl
        rcases List.mem_map.mp hl with ⟨y, _, hy⟩
        rw [← hy]
        rfl
      · show sumTotalExecutions _ = 0
        unfold sumTotalExecutions at hexec ⊢
        simp only [List.map_map]
        exact hexec
      · show 1 ≤ sumQueued _
        unfold sumQueued at hqueued ⊢
        simp only [List.map_map]
        exact hqueued
  | work li w draw =>
    unfold sysStep
    by_cases hr : li < s.exec.lanes.length
    · simp only [hr, if_true]
      have hmem : s.exec.lanes.getD li (ExecutionLane.init li s.exec.execution_mode) ∈
          s.exec.lanes := by
        rw [List.getD_eq_getElem _ _ hr]
        exact List.getElem_mem hr
      have hlr := hstop _ hmem
      have hws := workerStep_stopped _ s.env w s.clock draw hlr
      refine ⟨?_, ?_, ?_⟩
      · intro l hl
        rcases List.mem_or_eq_of_mem_set hl with hmem2 | heq
        · exact hstop l hmem2
        · rw [heq]
          exact hws.2.1
      · show sumTotalExecutions _ = 0
        unfold sumTotalExecutions
        simp only
        rw [sum_map_set_eq _ (ExecutionLane.init li s.exec.execution_mode) _ _ _
          (by rw [hws.1])]
        exact hexec
      · show 1 ≤ sumQueued _
        unfold sumQueued
        simp only
        calc 1 ≤ sumQueued s.exec := hqueued
          _ ≤ _ := sum_map_set_ge laneQueued
              (ExecutionLane.init li s.exec.execution_mode) _ _ _
              (by unfold laneQueued; rw [hws.2.2])
    · simp only [hr, if_false]
      exact ⟨hstop, hexec, hqueued⟩

theorem stoppedInv_run (s : EngineSys) (acts : List SysAction) (h : stoppedInv s) :
    stoppedInv (sysRun s acts) := by
  induction acts generalizing s with
  | nil => exact h
  | cons a rest ih => exact ih (sysStep s a) (stoppedInv_step s a h)

/-- A freshly constructed engine, started at clock 0, under the default
environment. -/
def apexStartedSys : EngineSys :=
  { env := defaultEnv, exec := (QuadLaneExecutor.init ExecutionMode.DEV).start 0,
    clock := 0 }

/-- Claim C9 fails on the code: `stop()` clears `is_running` *before* waiting
on the queues, so a worker loop that observes the cleared flag exits without
draining its queue.  Concretely: submit one opportunity (`N = 1`) to a
running engine and signal stop before any worker step runs; then under every
possible continuation schedule `acts` the aggregate `total_executions` stays
0 (never 1 = N), and at least one opportunity stays buffered forever — so the
`queue.join()` calls inside `stop()` can never complete either. -/
theorem stop_signal_strands_enqueued_opportunity (o : Opportunity)
    (acts : List SysAction) :
    sumQueued (sysRun apexStartedSys
      [SysAction.submit o, SysAction.stopSignal]).exec = 1 ∧
    sumTotalExecutions (sysRun (sysRun apexStartedSys
      [SysAction.submit o, SysAction.stopSignal]) acts).exec = 0 ∧
    1 ≤ sumQueued (sysRun (sysRun apexStartedSys
      [SysAction.submit o, SysAction.stopSignal]) acts).exec := by
  have hrun1 : (sysStep apexStartedSys (SysAction.submit o)).exec.is_running = true := rfl
  have hlanes2 :
      (sysRun apexStartedSys [SysAction.submit o, SysAction.stopSignal]).exec.lanes =
        (sysStep apexStartedSys (SysAction.submit o)).exec.lanes.map
          ExecutionLane.stopSignal := by
    show ((sysStep apexStartedSys (SysAction.submit o)).exec.stopSignal).lanes = _
    unfold QuadLaneExecutor.stopSignal
    rw [if_neg (by simp [hrun1])]
  have hq : sumQueued (sysRun apexStartedSys
      [SysAction.submit o, SysAction.stopSignal]).exec = 1 := rfl
  have hx : sumTotalExecutions (sysRun apexStartedSys
      [SysAction.submit o, SysAction.stopSignal]).exec = 0 := rfl
  have hinv : stoppedInv (sysRun apexStartedSys
      [SysAction.submit o, SysAction.stopSignal]) := by
    refine ⟨?_, hx, by rw [hq]⟩
    intro l hl
    rw [hlanes2] at hl
    rcases List.mem_map.mp hl with ⟨y, _, hy⟩
    rw [← hy]
    rfl
  have hfin := stoppedInv_run _ acts hinv
  exact ⟨hq, hfin.2.1, hfin.2.2⟩

end Apex
